import Mathlib

/-!
Verification development for the review-extraction/validation pipeline
(`gemini_extractor.py`, `validation_agent.py`, `do_it_all.py`).

The tabular files (the Record Store `extracted_studies.xlsx` and the
Discrepancy Log `validation_discrepancies.xlsx`) are modelled as lists of
rows whose cells are `Option String` (`none` = pandas null).  The remote
agent interaction is modelled by its observable data flow: a per-document
environment function returning the parsed reply (or `none` for any failed
step, mirroring the catch-all failure policy of the clients).
-/

namespace SysReviewAgent

/-- A cell of a tabular file: `none` models a pandas null value. -/
abbrev Cell := Option String

/-- One discrepancy object of an agent validation reply
(`validation_agent.py`, JSON shape requested by `create_validation_prompt`).
Each key is optional because `d.get(...)` is used on the parsed dict. -/
structure Discrepancy where
  field : Option String
  extractedValue : Option String
  correctValue : Option String
  severity : Option String
  description : Option String
deriving DecidableEq, Repr

/-- A parsed agent reply as handled by `interact_with_gemini`
(`validation_agent.py` lines 205-227): the `status` and `discrepancies`
keys may each be absent (`data.get` semantics); `message`/`rawResponse`
are only populated on the ERROR replies built at lines 225 and 227. -/
structure AgentReply where
  status : Option String
  discrepancies : Option (List Discrepancy)
  message : Option String := none
  rawResponse : Option String := none
deriving DecidableEq, Repr

/-- Python truthiness of `data.get('discrepancies')`: an absent key and an
empty list are both falsy. -/
def truthy (d : Option (List Discrepancy)) : Bool :=
  match d with
  | none => false
  | some l => !l.isEmpty

/-- `[d for d in data['discrepancies'] if d.get('severity') == 'CRITICAL']`
(`validation_agent.py` line 209): no default, a missing severity does not
count. -/
def criticalStrict (ds : List Discrepancy) : List Discrepancy :=
  ds.filter (fun d => decide (d.severity = some "CRITICAL"))

/-- `[d for d in data['discrepancies'] if d.get('severity', 'CRITICAL') == 'CRITICAL']`
(`validation_agent.py` line 217): a missing severity defaults to CRITICAL. -/
def criticalDefault (ds : List Discrepancy) : List Discrepancy :=
  ds.filter (fun d => decide (d.severity.getD "CRITICAL" = "CRITICAL"))

/-- Severity reconciliation of `interact_with_gemini`
(`validation_agent.py` lines 207-220), applied in program order:
first the FAIL-to-PASS downgrade (only MINOR discrepancies, strict
severity test), then the PASS-to-FAIL override (some CRITICAL
discrepancy, severity defaulting to CRITICAL) on the possibly already
downgraded reply. -/
def reconcile (data : AgentReply) : AgentReply :=
  let d1 :=
    if data.status = some "FAIL" ∧ truthy data.discrepancies = true then
      if (criticalStrict (data.discrepancies.getD [])).isEmpty then
        { data with status := some "PASS" }
      else data
    else data
  if d1.status = some "PASS" ∧ truthy d1.discrepancies = true then
    if !(criticalDefault (d1.discrepancies.getD [])).isEmpty then
      { d1 with status := some "FAIL" }
    else d1
  else d1

/-- The claim-side predicate of C1: the discrepancy list contains at least
one item whose severity is CRITICAL, a missing severity counting as
CRITICAL by default. -/
def hasCriticalDefault (d : Option (List Discrepancy)) : Bool :=
  (d.getD []).any (fun x => decide (x.severity.getD "CRITICAL" = "CRITICAL"))

lemma isEmpty_filter_eq_not_any {α : Type} (p : α → Bool) (l : List α) :
    (l.filter p).isEmpty = !(l.any p) := by
  induction l with
  | nil => rfl
  | cons a t ih =>
    by_cases h : p a
    · simp [List.filter_cons, List.any_cons, h]
    · simp [List.filter_cons, List.any_cons, h, ih]

lemma criticalDefault_isEmpty (ds : List Discrepancy) :
    (criticalDefault ds).isEmpty = !(hasCriticalDefault (some ds)) := by
  simp [criticalDefault, hasCriticalDefault, isEmpty_filter_eq_not_any]

lemma hasCriticalDefault_of_strict (ds : List Discrepancy)
    (h : (criticalStrict ds).isEmpty = false) : hasCriticalDefault (some ds) = true := by
  rw [criticalStrict, isEmpty_filter_eq_not_any] at h
  simp only [Bool.not_eq_false', List.any_eq_true, decide_eq_true_eq] at h
  obtain ⟨d, hd, hsev⟩ := h
  simp only [hasCriticalDefault, Option.getD_some, List.any_eq_true, decide_eq_true_eq]
  exact ⟨d, hd, by simp [hsev]⟩

/-- The reply `{status: "FAIL", discrepancies: []}` used to refute C1. -/
def replyFailEmptyC1 : AgentReply := { status := some "FAIL", discrepancies := some [] }

/-- Claim C1 counterexample: on the agent reply `{status: FAIL, discrepancies: []}`
the reconciled status stays FAIL although the list contains no CRITICAL
discrepancy (so "FAIL iff some CRITICAL discrepancy" fails), and the same
(empty) discrepancy list with agent status PASS reconciles to PASS — the
result is not a function of the severities alone. -/
theorem reconcile_depends_on_agent_status :
    (reconcile replyFailEmptyC1).status = some "FAIL" ∧
      hasCriticalDefault replyFailEmptyC1.discrepancies = false ∧
      (reconcile { replyFailEmptyC1 with status := some "PASS" }).status = some "PASS" :=
  ⟨rfl, rfl, rfl⟩

/-- Claim C1 (amended): for every agent reply whose reported status is PASS
or FAIL and whose discrepancy list is non-empty, the reconciled status is
FAIL iff the list contains at least one discrepancy whose severity is
CRITICAL or missing (missing treated as CRITICAL); a reply with an empty or
absent discrepancy list keeps the agent-reported status unchanged. -/
theorem reconcile_fail_iff_critical_default (r : AgentReply)
    (hs : r.status = some "PASS" ∨ r.status = some "FAIL")
    (hne : truthy r.discrepancies = true) :
    ((reconcile r).status = some "FAIL") ↔ hasCriticalDefault r.discrepancies = true := by
  obtain ⟨st, ds, msg, raw⟩ := r
  simp only at hs hne ⊢
  obtain ⟨l, rfl⟩ : ∃ l, ds = some l := by
    cases ds with
    | none => simp [truthy] at hne
    | some l => exact ⟨l, rfl⟩
  rcases hs with h | h <;> subst h <;>
    simp only [reconcile] <;>
    split_ifs <;>
    simp_all [criticalDefault_isEmpty, hasCriticalDefault_of_strict]

/-- Concrete reply witnessing `reconcile_fail_iff_critical_default`:
agent says PASS but lists one discrepancy with no severity field. -/
def wreplyC1 : AgentReply :=
  { status := some "PASS",
    discrepancies := some [{ field := none, extractedValue := none, correctValue := none,
                             severity := none, description := none }] }

/-- Witness for `reconcile_fail_iff_critical_default` at `wreplyC1`. -/
theorem reconcile_fail_iff_critical_default_witness :
    ((wreplyC1.status = some "PASS" ∨ wreplyC1.status = some "FAIL") ∧
        truthy wreplyC1.discrepancies = true) ∧
      ((reconcile wreplyC1).status = some "FAIL" ↔
        hasCriticalDefault wreplyC1.discrepancies = true) :=
  ⟨⟨Or.inl rfl, rfl⟩, reconcile_fail_iff_critical_default wreplyC1 (Or.inl rfl) rfl⟩

/-- One row of the Record Store (`extracted_studies.xlsx`): the
`Source File` cell (possibly null) and the remaining columns as an
association list of cells. -/
structure StoreRow where
  sourceFile : Option String
  fields : List (String × Cell)
deriving DecidableEq, Repr

/-- `existing_df['Source File'].dropna().astype(str).tolist()`
(`gemini_extractor.py` line 250): the non-null recorded identifiers. -/
def processedIds (store : List StoreRow) : List String :=
  store.filterMap (fun r => r.sourceFile)

/-- Python's `sub in hay` membership test on strings, over character
lists: `sub` occurs as a contiguous substring of `hay`. -/
def isSubstr (sub : List Char) : List Char → Bool
  | [] => sub.isEmpty
  | b :: bs => sub.isPrefixOf (b :: bs) || isSubstr sub bs

/-- Resume-skip test of the Extraction Stage (`gemini_extractor.py`
lines 252-255): a document is skipped when its basename occurs as a
substring of some recorded `Source File` value. -/
def skipTest (store : List StoreRow) (basename : String) : Bool :=
  (processedIds store).any (fun recorded => isSubstr basename.toList recorded.toList)

/-- `get_pdf_files` (`gemini_extractor.py` lines 231-233): keep the
directory entries whose lowercased name ends in `.pdf`. -/
def pdfListing (entries : List String) : List String :=
  entries.filter (fun f => f.toLower.endsWith ".pdf")

/-- One loop iteration of the extractor's main loop
(`gemini_extractor.py` lines 363-387) at the data level: the extraction
environment `env` maps a document name to the parsed field values of a
successful turn, or `none` when any step of the turn failed; a success
appends one row (with `Source File` set to the document name) to the
Store, a failure leaves the Store unchanged. -/
def extractOne (env : String → Option (List (String × Cell)))
    (store : List StoreRow) (f : String) : List StoreRow :=
  match env f with
  | none => store
  | some fs => store ++ [{ sourceFile := some f, fields := fs }]

/-- A corpus-scan Extraction Stage run (`gemini_extractor.py` `main`
with `files_to_process = None` and no limit): list the pdf entries,
drop those passing the resume-skip test against the Store read at
start, then process the rest in order, appending incrementally. -/
def corpusRun (env : String → Option (List (String × Cell)))
    (entries : List String) (store : List StoreRow) : List StoreRow :=
  ((pdfListing entries).filter (fun f => !skipTest store f)).foldl (extractOne env) store

/-- A targeted Extraction Stage run (`gemini_extractor.py` `main` with
an explicit `--files` list, lines 240-242): keep the requested files
that exist in the articles directory — no resume-skip test — and
process them in order. -/
def targetedRun (env : String → Option (List (String × Cell)))
    (entries : List String) (store : List StoreRow) (files : List String) : List StoreRow :=
  (files.filter (fun f => decide (f ∈ entries))).foldl (extractOne env) store

lemma isPrefixOf_self (l : List Char) : l.isPrefixOf l = true := by
  induction l with
  | nil => rfl
  | cons a t ih => simp [List.isPrefixOf, ih]

lemma isSubstr_self (s : List Char) : isSubstr s s = true := by
  cases s with
  | nil => rfl
  | cons a t => simp [isSubstr, isPrefixOf_self]

lemma skipTest_of_mem_processed {store : List StoreRow} {f : String}
    (h : f ∈ processedIds store) : skipTest store f = true := by
  simp only [skipTest, List.any_eq_true]
  exact ⟨f, h, isSubstr_self f.toList⟩

lemma mem_foldl_extractOne (env : String → Option (List (String × Cell))) :
    ∀ (l : List String) (store : List StoreRow) (r : StoreRow),
      r ∈ store → r ∈ l.foldl (extractOne env) store := by
  intro l
  induction l with
  | nil => intro store r h; exact h
  | cons a t ih =>
    intro store r h
    refine ih _ r ?_
    unfold extractOne
    cases env a with
    | none => exact h
    | some fs => exact List.mem_append_left _ h

lemma processedIds_mono (env : String → Option (List (String × Cell))) :
    ∀ (l : List String) (store : List StoreRow) (x : String),
      x ∈ processedIds store → x ∈ processedIds (l.foldl (extractOne env) store) := by
  intro l
  induction l with
  | nil => intro store x h; exact h
  | cons a t ih =>
    intro store x h
    refine ih _ x ?_
    unfold extractOne
    cases env a with
    | none => exact h
    | some fs => simp [processedIds, List.filterMap_append]; exact Or.inl (by simpa [processedIds] using h)

lemma mem_processedIds_of_success (env : String → Option (List (String × Cell))) :
    ∀ (l : List String) (store : List StoreRow) (f : String),
      f ∈ l → (env f).isSome = true → f ∈ processedIds (l.foldl (extractOne env) store) := by
  intro l
  induction l with
  | nil => intro store f h; simp at h
  | cons a t ih =>
    intro store f hmem hsome
    rcases List.mem_cons.mp hmem with h | h
    · subst h
      refine processedIds_mono env t _ f ?_
      unfold extractOne
      cases henv : env f with
      | none => rw [henv] at hsome; simp at hsome
      | some fs => simp [processedIds, List.filterMap_append]
    · exact ih _ f h hsome

lemma foldl_extractOne_of_none (env : String → Option (List (String × Cell))) :
    ∀ (l : List String) (store : List StoreRow),
      (∀ f ∈ l, env f = none) → l.foldl (extractOne env) store = store := by
  intro l
  induction l with
  | nil => intro store _; rfl
  | cons a t ih =>
    intro store h
    have ha : env a = none := h a (List.mem_cons_self a t)
    show t.foldl (extractOne env) (extractOne env store a) = store
    rw [extractOne, ha]
    exact ih store (fun f hf => h f (List.mem_cons_of_mem a hf))

/-- Claim C3: running the corpus-scan Extraction Stage a second time
against the same corpus listing and the Store produced by the first run
changes nothing — in particular the set of recorded `source_id`s of
two runs equals that of a single run — because every document whose
basename occurs as a substring of an already-recorded `Source File`
value is skipped, and every document the second run would retry is one
whose extraction environment already yielded no record. -/
theorem extraction_idempotent (env : String → Option (List (String × Cell)))
    (entries : List String) (store : List StoreRow) :
    corpusRun env entries (corpusRun env entries store) = corpusRun env entries store ∧
      (processedIds (corpusRun env entries (corpusRun env entries store))).toFinset
        = (processedIds (corpusRun env entries store)).toFinset := by
  have hmain : corpusRun env entries (corpusRun env entries store) = corpusRun env entries store := by
    unfold corpusRun
    set S1 := ((pdfListing entries).filter (fun f => !skipTest store f)).foldl (extractOne env) store with hS1
    apply foldl_extractOne_of_none
    intro f hf
    rcases List.mem_filter.mp hf with ⟨hfpdf, hfskip⟩
    by_contra henv
    have hsome : (env f).isSome = true := by
      cases h : env f with
      | none => exact absurd h henv
      | some fs => rfl
    -- f was not skipped against S1, hence not skipped against the initial store either
    have hskip0 : (!skipTest store f) = true := by
      by_contra h0
      have : skipTest store f = true := by
        cases h : skipTest store f with
        | false => rw [h] at h0; simp at h0
        | true => rfl
      rcases List.any_eq_true.mp this with ⟨rec, hrec, hsub⟩
      have hrec1 : rec ∈ processedIds S1 := by
        rw [hS1]
        exact processedIds_mono env _ store rec hrec
      have : skipTest S1 f = true := List.any_eq_true.mpr ⟨rec, hrec1, hsub⟩
      rw [this] at hfskip
      simp at hfskip
    -- hence f was processed by the first run and its record is in S1
    have hmem : f ∈ (pdfListing entries).filter (fun f => !skipTest store f) :=
      List.mem_filter.mpr ⟨hfpdf, hskip0⟩
    have : f ∈ processedIds S1 := by
      rw [hS1]
      exact mem_processedIds_of_success env _ store f hmem hsome
    have : skipTest S1 f = true := skipTest_of_mem_processed this
    rw [this] at hfskip
    simp at hfskip
  exact ⟨hmain, by rw [hmain]⟩

/-- A Store already holding a record for `a.pdf`, used to refute C4. -/
def dupStoreC4 : List StoreRow := [{ sourceFile := some "a.pdf", fields := [] }]

/-- An extraction environment whose every turn succeeds with no fields. -/
def allSucceedEnv : String → Option (List (String × Cell)) := fun _ => some []

/-- Claim C4 counterexample: a targeted Extraction Stage invocation
(`--files a.pdf`) performs no membership skip test, so invoking it on a
Store that already holds a record for `a.pdf` appends a second row with
the same `Source File` value — the at-most-one-record-per-`source_id`
invariant is violated. -/
theorem targeted_extraction_creates_duplicate :
    processedIds (targetedRun allSucceedEnv ["a.pdf"] dupStoreC4 ["a.pdf"]) = ["a.pdf", "a.pdf"] ∧
      ¬(processedIds (targetedRun allSucceedEnv ["a.pdf"] dupStoreC4 ["a.pdf"])).Nodup := by
  constructor
  · rfl
  · decide

lemma processedIds_append_success (store : List StoreRow) (f : String) (fs : List (String × Cell)) :
    processedIds (store ++ [{ sourceFile := some f, fields := fs }]) = processedIds store ++ [f] := by
  simp [processedIds, List.filterMap_append]

lemma nodup_foldl_extractOne (env : String → Option (List (String × Cell))) :
    ∀ (l : List String) (store : List StoreRow),
      (processedIds store).Nodup → l.Nodup → (∀ f ∈ l, f ∉ processedIds store) →
      (processedIds (l.foldl (extractOne env) store)).Nodup := by
  intro l
  induction l with
  | nil => intro store hst _ _; exact hst
  | cons a t ih =>
    intro store hst hnd hnm
    have hnd' := List.nodup_cons.mp hnd
    show (processedIds (t.foldl (extractOne env) (extractOne env store a))).Nodup
    unfold extractOne
    cases henv : env a with
    | none =>
      exact ih store hst hnd'.2 (fun f hf => hnm f (List.mem_cons_of_mem a hf))
    | some fs =>
      refine ih _ ?_ hnd'.2 ?_
      · rw [processedIds_append_success]
        refine List.Nodup.append hst (List.nodup_singleton a) ?_
        intro x hx hx'
        have hxa : x = a := List.mem_singleton.mp hx'
        subst hxa
        exact hnm x (List.mem_cons_self x t) hx
      · intro f hf
        rw [processedIds_append_success]
        intro hmem
        rcases List.mem_append.mp hmem with h | h
        · exact hnm f (List.mem_cons_of_mem a hf) h
        · rcases List.mem_singleton.mp h with rfl
          exact hnd'.1 hf

/-- Claim C4 (amended): corpus-scan Extraction Stage invocations preserve
the at-most-one-record-per-`source_id` invariant (given a duplicate-free
directory listing), because membership in the Store is the skip test; a
targeted invocation with an explicit file list, by contrast, performs no
skip test and can append a duplicate row for a `source_id` already in the
Store (the orchestrator avoids this by purging those rows first). -/
theorem corpus_extraction_preserves_uniqueness (env : String → Option (List (String × Cell)))
    (entries : List String) (store : List StoreRow)
    (hentries : entries.Nodup) (hstore : (processedIds store).Nodup) :
    (processedIds (corpusRun env entries store)).Nodup := by
  unfold corpusRun
  refine nodup_foldl_extractOne env _ store hstore ?_ ?_
  · exact (List.Nodup.filter _ (List.Nodup.filter _ hentries))
  · intro f hf hmem
    rcases List.mem_filter.mp hf with ⟨-, hskip⟩
    rw [skipTest_of_mem_processed hmem] at hskip
    simp at hskip

/-- Witness for `corpus_extraction_preserves_uniqueness`: a concrete
corpus scan over `["a.pdf", "b.pdf"]` with an empty Store. -/
theorem corpus_extraction_preserves_uniqueness_witness :
    ((["a.pdf", "b.pdf"] : List String).Nodup ∧ (processedIds []).Nodup) ∧
      (processedIds (corpusRun allSucceedEnv ["a.pdf", "b.pdf"] [])).Nodup :=
  ⟨⟨by decide, by decide⟩,
    corpus_extraction_preserves_uniqueness allSucceedEnv ["a.pdf", "b.pdf"] [] (by decide) (by decide)⟩

/-- One row of the Discrepancy Log (`validation_discrepancies.xlsx`),
with the columns written by `validation_agent.py` lines 454-471. -/
structure LogRow where
  sourceFile : Option String
  status : Option String
  field : Option String
  extractedValue : Option String
  correctValue : Option String
  description : Option String
deriving DecidableEq, Repr

/-- `get_failed_files` (`do_it_all.py` lines 29-40): a missing log file
yields the empty list; otherwise take the `Source File` values of the
rows whose `Status` is FAIL, de-duplicate them preserving first
occurrence (`unique()`), and drop nulls. -/
def getFailedFiles (log : Option (List LogRow)) : List String :=
  match log with
  | none => []
  | some rows =>
      (((rows.filter (fun r => decide (r.status = some "FAIL"))).map
          (fun r => r.sourceFile)).dedup).filterMap id

/-- The purge of `cleanup_failed_entries` (`do_it_all.py` lines 47-57):
keep exactly the Store rows whose `Source File` is not one of the failed
identifiers (a null identifier is never matched by `isin`). -/
def cleanupFailedEntries (store : List StoreRow) (failed : List String) : List StoreRow :=
  store.filter (fun r => !decide (r.sourceFile ∈ failed.map some))

/-- The pre-purge snapshot captured by `cleanup_failed_entries`
(`do_it_all.py` line 49): the Store rows whose identifier is failed. -/
def failedSnapshot (store : List StoreRow) (failed : List String) : List StoreRow :=
  store.filter (fun r => decide (r.sourceFile ∈ failed.map some))

/-- Phase 2 of the orchestrator (`do_it_all.py` lines 125-145) at the
data level: read the failure set from the Discrepancy Log; when it is
empty stop; otherwise purge the failed rows from the Store and run the
Extraction Stage targeted at exactly the failed files. -/
def healPurgeReextract (env : String → Option (List (String × Cell)))
    (entries : List String) (store : List StoreRow) (log : Option (List LogRow)) :
    List StoreRow :=
  let failed := getFailedFiles log
  if failed.isEmpty then store
  else targetedRun env entries (cleanupFailedEntries store failed) failed

lemma foldl_extractOne_all_some (env : String → Option (List (String × Cell))) :
    ∀ (l : List String) (store : List StoreRow),
      (∀ f ∈ l, (env f).isSome = true) →
      l.foldl (extractOne env) store
        = store ++ l.map (fun f => { sourceFile := some f, fields := (env f).getD [] }) := by
  intro l
  induction l with
  | nil => intro store _; simp
  | cons a t ih =>
    intro store h
    have ha : (env a).isSome = true := h a (List.mem_cons_self a t)
    show t.foldl (extractOne env) (extractOne env store a) = _
    cases henv : env a with
    | none => rw [henv] at ha; simp at ha
    | some fs =>
      rw [extractOne, henv, ih _ (fun f hf => h f (List.mem_cons_of_mem a hf))]
      simp [henv]

/-- Claim C2: under a healing cycle whose failed documents all exist in
the articles directory and whose re-extraction turns all succeed, the
healed Store is the purged Store followed by freshly extracted records
whose `source_id`s are exactly the distinct FAIL `source_id`s of the
preceding validation pass, and every Store row outside that set survives
the purge unchanged. -/
theorem healing_scope_containment (env : String → Option (List (String × Cell)))
    (entries : List String) (store : List StoreRow) (log : Option (List LogRow))
    (hne : getFailedFiles log ≠ [])
    (hex : ∀ f ∈ getFailedFiles log, f ∈ entries)
    (hok : ∀ f ∈ getFailedFiles log, (env f).isSome = true) :
    (∃ reextracted : List StoreRow,
        healPurgeReextract env entries store log
            = cleanupFailedEntries store (getFailedFiles log) ++ reextracted
          ∧ reextracted.map (fun r => r.sourceFile) = (getFailedFiles log).map some) ∧
      ∀ r ∈ store, r.sourceFile ∉ (getFailedFiles log).map some →
        r ∈ cleanupFailedEntries store (getFailedFiles log) := by
  constructor
  · refine ⟨(getFailedFiles log).map
        (fun f => { sourceFile := some f, fields := (env f).getD [] }), ?_, ?_⟩
    · unfold healPurgeReextract
      rw [if_neg (by simpa [List.isEmpty_iff] using hne)]
      unfold targetedRun
      rw [List.filter_eq_self.mpr (fun f hf => decide_eq_true (hex f hf))]
      exact foldl_extractOne_all_some env _ _ hok
    · simp
  · intro r hr hnmem
    exact List.mem_filter.mpr ⟨hr, by simpa using hnmem⟩

/-- Concrete healing scenario witnessing `healing_scope_containment`:
the log records a FAIL for `a.pdf`; the Store holds `a.pdf` and `b.pdf`. -/
def wlogC2 : Option (List LogRow) :=
  some [{ sourceFile := some "a.pdf", status := some "FAIL", field := some "Journal",
          extractedValue := some "X", correctValue := some "Y",
          description := some "wrong journal" }]

/-- The Store used by the C2 witness. -/
def wstoreC2 : List StoreRow :=
  [{ sourceFile := some "a.pdf", fields := [("Journal", some "X")] },
   { sourceFile := some "b.pdf", fields := [("Journal", some "Z")] }]

/-- Witness for `healing_scope_containment` on `wlogC2` and `wstoreC2`. -/
theorem healing_scope_containment_witness :
    (getFailedFiles wlogC2 ≠ [] ∧
        (∀ f ∈ getFailedFiles wlogC2, f ∈ ["a.pdf", "b.pdf"]) ∧
        (∀ f ∈ getFailedFiles wlogC2, (allSucceedEnv f).isSome = true)) ∧
      ((∃ reextracted : List StoreRow,
          healPurgeReextract allSucceedEnv ["a.pdf", "b.pdf"] wstoreC2 wlogC2
              = cleanupFailedEntries wstoreC2 (getFailedFiles wlogC2) ++ reextracted
            ∧ reextracted.map (fun r => r.sourceFile) = (getFailedFiles wlogC2).map some) ∧
        ∀ r ∈ wstoreC2, r.sourceFile ∉ (getFailedFiles wlogC2).map some →
          r ∈ cleanupFailedEntries wstoreC2 (getFailedFiles wlogC2)) :=
  ⟨⟨by decide, by decide, by decide⟩,
    healing_scope_containment allSucceedEnv ["a.pdf", "b.pdf"] wstoreC2 wlogC2
      (by decide) (by decide) (by decide)⟩

/-- `str(x) if pd.notnull(x) else "NULL"` (`do_it_all.py` lines 84-85):
the string representation of a cell, nulls rendered as the token NULL. -/
def strOrNull (c : Cell) : String :=
  match c with
  | none => "NULL"
  | some s => s

/-- Reading column `c` of a Store row; a column missing from the
association list reads as a null cell. -/
def cellOf (r : StoreRow) (c : String) : Cell :=
  (r.fields.lookup c).join

/-- The columns excluded from the healing comparison
(`do_it_all.py` line 81: `c not in ['Result', 'Sl.no']`). -/
def excludedReportCols : List String := ["Result", "Sl.no"]

/-- `before_df.loc[[filename]].iloc[0]` after `set_index('Source File')`:
the first row carrying the given identifier. -/
def firstRowWith (rows : List StoreRow) (id : String) : Option StoreRow :=
  rows.find? (fun r => decide (r.sourceFile = some id))

/-- One row of the healing report (`do_it_all.py` lines 88-94). -/
structure ReportEntry where
  article : String
  field : String
  originalValue : String
  healedValue : String
  status : String
deriving DecidableEq, Repr

/-- The comparison entries produced for one failed filename
(`do_it_all.py` lines 75-94): nothing when the filename is missing from
either frame; otherwise one FIXED entry per common column whose
NULL-tokenized string representation differs. -/
def reportRowsFor (commonCols : List String) (beforeRows afterRows : List StoreRow)
    (filename : String) : List ReportEntry :=
  match firstRowWith beforeRows filename, firstRowWith afterRows filename with
  | some oldRow, some newRow =>
      (commonCols.filter
          (fun c => decide (strOrNull (cellOf oldRow c) ≠ strOrNull (cellOf newRow c)))).map
        (fun c =>
          { article := filename, field := c,
            originalValue := strOrNull (cellOf oldRow c),
            healedValue := strOrNull (cellOf newRow c),
            status := "FIXED" })
  | _, _ => []

/-- `common_cols` (`do_it_all.py` line 81): the before-frame columns also
present in the after-frame, minus the excluded metadata columns. -/
def commonReportCols (beforeCols afterCols : List String) : List String :=
  beforeCols.filter (fun c => decide (c ∈ afterCols) && !decide (c ∈ excludedReportCols))

/-- `generate_healing_report` (`do_it_all.py` lines 61-101) at the data
level: restrict the post-healing Store to the failed identifiers, then
collect the per-filename comparison entries in order. -/
def generateHealingReport (beforeCols afterCols : List String)
    (beforeRows afterRows : List StoreRow) (failed : List String) : List ReportEntry :=
  (failed.map
      (reportRowsFor (commonReportCols beforeCols afterCols) beforeRows
        (afterRows.filter (fun r => decide (r.sourceFile ∈ failed.map some))))).flatten

/-- Pre-healing row used to refute C5: its `Result` column changed. -/
def beforeRowC5 : StoreRow :=
  { sourceFile := some "a.pdf", fields := [("Result", some "old")] }

/-- Post-healing row used to refute C5. -/
def afterRowC5 : StoreRow :=
  { sourceFile := some "a.pdf", fields := [("Result", some "new")] }

/-- Claim C5 counterexample: `Result` is a column common to the pre-purge
snapshot and the post-re-extraction Store, the healed document is present
in both, and the column's string representation changed — yet the healing
report is empty, because the code excludes the columns `Result` and
`Sl.no` from the comparison. -/
theorem healing_report_misses_result_column :
    generateHealingReport ["Result"] ["Result"] [beforeRowC5] [afterRowC5] ["a.pdf"] = [] ∧
      strOrNull (cellOf beforeRowC5 "Result") ≠ strOrNull (cellOf afterRowC5 "Result") ∧
      firstRowWith [beforeRowC5] "a.pdf" = some beforeRowC5 ∧
      firstRowWith [afterRowC5] "a.pdf" = some afterRowC5 := by
  refine ⟨rfl, by decide, rfl, rfl⟩

/-- Claim C5 (amended): for every healed `source_id` present in both the
pre-purge snapshot and the (failed-restricted) post-re-extraction Store,
and for every column common to both frames other than the excluded
metadata columns `Result` and `Sl.no`, a FIXED entry is emitted iff the
field's NULL-tokenized string representation changed (so null→value and
value→null both count, and an unchanged field yields no entry). -/
theorem healing_report_exact_field_diff (beforeCols afterCols : List String)
    (beforeRows afterRows : List StoreRow) (failed : List String)
    (c fn : String) (oldRow newRow : StoreRow)
    (hc1 : c ∈ beforeCols) (hc2 : c ∈ afterCols) (hc3 : c ∉ excludedReportCols)
    (hfn : fn ∈ failed)
    (hold : firstRowWith beforeRows fn = some oldRow)
    (hnew : firstRowWith
        (afterRows.filter (fun r => decide (r.sourceFile ∈ failed.map some))) fn
      = some newRow) :
    ({ article := fn, field := c,
       originalValue := strOrNull (cellOf oldRow c),
       healedValue := strOrNull (cellOf newRow c),
       status := "FIXED" } : ReportEntry)
        ∈ generateHealingReport beforeCols afterCols beforeRows afterRows failed
      ↔ strOrNull (cellOf oldRow c) ≠ strOrNull (cellOf newRow c) := by
  unfold generateHealingReport
  constructor
  · intro hmem
    rcases List.mem_flatten.mp hmem with ⟨entries, hentries, hin⟩
    rcases List.mem_map.mp hentries with ⟨fn', hfn', rfl⟩
    unfold reportRowsFor at hin
    cases hold' : firstRowWith beforeRows fn' with
    | none => rw [hold'] at hin; simp at hin
    | some oldRow' =>
      cases hnew' : firstRowWith
          (afterRows.filter (fun r => decide (r.sourceFile ∈ failed.map some))) fn' with
      | none => rw [hold', hnew'] at hin; simp at hin
      | some newRow' =>
        rw [hold', hnew'] at hin
        rcases List.mem_map.mp hin with ⟨c', hc', heq⟩
        have hfneq : fn' = fn := congrArg ReportEntry.article heq
        subst hfneq
        have hceq : c' = c := congrArg ReportEntry.field heq
        subst hceq
        rw [hold'] at hold
        rw [hnew'] at hnew
        cases hold
        cases hnew
        rcases List.mem_filter.mp hc' with ⟨-, hdiff⟩
        exact of_decide_eq_true hdiff
  · intro hdiff
    refine List.mem_flatten.mpr
      ⟨reportRowsFor (commonReportCols beforeCols afterCols) beforeRows
          (afterRows.filter (fun r => decide (r.sourceFile ∈ failed.map some))) fn,
        List.mem_map.mpr ⟨fn, hfn, rfl⟩, ?_⟩
    unfold reportRowsFor
    rw [hold, hnew]
    refine List.mem_map.mpr ⟨c, ?_, rfl⟩
    refine List.mem_filter.mpr ⟨?_, decide_eq_true hdiff⟩
    unfold commonReportCols
    refine List.mem_filter.mpr ⟨hc1, ?_⟩
    rw [decide_eq_true hc2]
    rw [decide_eq_false hc3]
    rfl

/-- Pre-healing row for the C5 witness: `Journal` was null. -/
def wbeforeRowC5 : StoreRow :=
  { sourceFile := some "a.pdf", fields := [("Journal", none), ("Country/Region", some "US")] }

/-- Post-healing row for the C5 witness: `Journal` now has a value. -/
def wafterRowC5 : StoreRow :=
  { sourceFile := some "a.pdf", fields := [("Journal", some "Spine"), ("Country/Region", some "US")] }

/-- Witness for `healing_report_exact_field_diff`: a null→value change of
the `Journal` column is reported. -/
theorem healing_report_exact_field_diff_witness :
    (("Journal" ∈ ["Journal", "Country/Region"]) ∧
        ("Journal" ∈ ["Journal", "Country/Region"]) ∧
        ("Journal" ∉ excludedReportCols) ∧
        ("a.pdf" ∈ ["a.pdf"]) ∧
        firstRowWith [wbeforeRowC5] "a.pdf" = some wbeforeRowC5 ∧
        firstRowWith
            ([wafterRowC5].filter (fun r => decide (r.sourceFile ∈ (["a.pdf"].map some)))) "a.pdf"
          = some wafterRowC5) ∧
      (({ article := "a.pdf", field := "Journal",
          originalValue := strOrNull (cellOf wbeforeRowC5 "Journal"),
          healedValue := strOrNull (cellOf wafterRowC5 "Journal"),
          status := "FIXED" } : ReportEntry)
          ∈ generateHealingReport ["Journal", "Country/Region"] ["Journal", "Country/Region"]
              [wbeforeRowC5] [wafterRowC5] ["a.pdf"]
        ↔ strOrNull (cellOf wbeforeRowC5 "Journal") ≠ strOrNull (cellOf wafterRowC5 "Journal")) :=
  ⟨⟨by decide, by decide, by decide, by decide, by decide, by decide⟩,
    healing_report_exact_field_diff ["Journal", "Country/Region"] ["Journal", "Country/Region"]
      [wbeforeRowC5] [wafterRowC5] ["a.pdf"] "Journal" "a.pdf" wbeforeRowC5 wafterRowC5
      (by decide) (by decide) (by decide) (by decide) (by decide) (by decide)⟩

/-- One `ValidationOutcome` as accumulated in `validation_results`
(`validation_agent.py`): the `Source File` set by the caller, the
(possibly absent) status and discrepancy list. -/
structure Outcome where
  sourceFile : Option String
  status : Option String
  discrepancies : Option (List Discrepancy)
deriving DecidableEq, Repr

/-- The single summary row flattened for an outcome with no
discrepancies (`validation_agent.py` lines 452-461). -/
def summaryRow (res : Outcome) : LogRow :=
  { sourceFile := res.sourceFile, status := res.status, field := none,
    extractedValue := none, correctValue := none,
    description :=
      if res.status = some "NO DATA" then some "Row has no extracted data points to verify"
      else some "None" }

/-- Flattening of one outcome into Discrepancy Log rows
(`validation_agent.py` lines 448-471): one row per discrepancy, or a
single summary row when the discrepancy list is absent or empty. -/
def flattenOutcome (res : Outcome) : List LogRow :=
  match res.discrepancies with
  | none => [summaryRow res]
  | some [] => [summaryRow res]
  | some (d :: ds) =>
      (d :: ds).map (fun d =>
        { sourceFile := res.sourceFile, status := res.status, field := d.field,
          extractedValue := d.extractedValue, correctValue := d.correctValue,
          description := d.description })

/-- `flattened` for a whole result list (`validation_agent.py` line 448). -/
def flattenAll (results : List Outcome) : List LogRow :=
  (results.map flattenOutcome).flatten

/-- The observable effect of one iteration of the validation main loop
(`validation_agent.py` lines 355-475) on the result list and the
Discrepancy Log file:
* `skipRow` — the row was skipped (invalid `Source File` after smart
  matching, or missing PDF): nothing happens, in particular no log save;
* `noData` — the all-null short circuit (lines 400-407): a NO DATA
  outcome is appended and the iteration `continue`s, skipping the
  incremental log save;
* `interact` — the row reached the agent interaction; a non-`none`
  reply appends an outcome, and the incremental save (lines 446-474)
  overwrites the log file with the flattening of all results so far
  (only when the result list is non-empty). -/
inductive RowAction where
  | skipRow : RowAction
  | noData : String → RowAction
  | interact : String → Option AgentReply → RowAction
deriving DecidableEq, Repr

/-- The NO DATA outcome appended at `validation_agent.py` lines 402-406. -/
def noDataOutcome (sf : String) : Outcome :=
  { sourceFile := some sf, status := some "NO DATA", discrepancies := some [] }

/-- `result['Source File'] = source_file` (`validation_agent.py` line 419). -/
def outcomeOfReply (sf : String) (r : AgentReply) : Outcome :=
  { sourceFile := some sf, status := r.status, discrepancies := r.discrepancies }

/-- The in-memory result list and the Discrepancy Log file
(`none` = the file does not exist). -/
structure ValState where
  results : List Outcome
  logFile : Option (List LogRow)
deriving DecidableEq, Repr

/-- One loop iteration of the validation main loop, as described at
`RowAction`. -/
def valStep (st : ValState) (a : RowAction) : ValState :=
  match a with
  | RowAction.skipRow => st
  | RowAction.noData sf => { st with results := st.results ++ [noDataOutcome sf] }
  | RowAction.interact sf reply =>
      let results :=
        match reply with
        | some r => st.results ++ [outcomeOfReply sf r]
        | none => st.results
      { results := results,
        logFile := if results.isEmpty then st.logFile else some (flattenAll results) }

/-- A whole Validation Stage pass over a sequence of row actions. -/
def runValidation (st : ValState) (acts : List RowAction) : ValState :=
  acts.foldl valStep st

/-- `meta_cols` of the row-data check (`validation_agent.py` line 397). -/
def metaColsValidation : List String := ["Source File", "Sl.no", "Unnamed: 0"]

/-- `clean_data` (`validation_agent.py` line 398): the non-metadata
entries of the row that are not null. -/
def nonMetaFields (row : StoreRow) : List (String × Cell) :=
  row.fields.filter (fun kv => !decide (kv.1 ∈ metaColsValidation) && kv.2.isSome)

/-- The per-row control flow of the validation main loop
(`validation_agent.py` lines 356-421) producing the row's action:
smart matching (lines 362-378, its author-year/filename heuristic
abstracted as `sm`) may supply an identifier when the `Source File`
cell is null; a row whose identifier is still null is skipped (lines
381-384); a row whose PDF does not exist in the articles directory is
skipped (lines 386-394); a row with no non-null non-metadata field
short-circuits to NO DATA (lines 396-407); otherwise the agent is
invoked (`agentTurn` models `interact_with_gemini`, `none` standing
for any failed turn). -/
def processRow (entries : List String) (sm : StoreRow → Option String)
    (agentTurn : StoreRow → Option AgentReply) (row : StoreRow) : RowAction :=
  let sf :=
    match row.sourceFile with
    | some s => some s
    | none => sm row
  match sf with
  | none => RowAction.skipRow
  | some s =>
      if decide (s ∈ entries) then
        if (nonMetaFields row).isEmpty then RowAction.noData s
        else RowAction.interact s (agentTurn row)
      else RowAction.skipRow

/-- A Store row whose only non-metadata field is null but whose PDF is
absent from the articles directory, used to refute C7. -/
def ghostRowC7 : StoreRow :=
  { sourceFile := some "ghost.pdf", fields := [("Study ID", none)] }

/-- Claim C7 counterexample: a Record Store row whose non-metadata
fields are all null but whose `Source File` names a PDF that does not
exist in the articles directory is skipped outright — no NO DATA
outcome is recorded for it (though the agent is indeed not invoked). -/
theorem no_data_row_skipped_when_pdf_missing :
    processRow [] (fun _ => none) (fun _ => none) ghostRowC7 = RowAction.skipRow ∧
      (valStep { results := [], logFile := none }
          (processRow [] (fun _ => none) (fun _ => none) ghostRowC7)).results = [] ∧
      (nonMetaFields ghostRowC7).isEmpty = true :=
  ⟨rfl, rfl, rfl⟩

/-- Claim C7 (amended): for every Record Store row whose non-metadata
fields are all null, provided its `Source File` is a present identifier
naming a PDF that exists in the articles directory, the Validation Stage
records a `NO DATA` outcome with an empty discrepancy list, without
invoking the agent (the action is `noData` for every possible agent
environment) and without touching the Discrepancy Log file in that
iteration; a row failing the identifier or PDF checks is skipped with no
outcome at all (and still no agent call). -/
theorem no_data_short_circuit (entries : List String) (sm : StoreRow → Option String)
    (agentTurn : StoreRow → Option AgentReply) (row : StoreRow) (st : ValState) (sf : String)
    (h1 : row.sourceFile = some sf) (h2 : sf ∈ entries)
    (h3 : (nonMetaFields row).isEmpty = true) :
    processRow entries sm agentTurn row = RowAction.noData sf ∧
      (valStep st (processRow entries sm agentTurn row)).results
          = st.results ++ [noDataOutcome sf] ∧
      (valStep st (processRow entries sm agentTurn row)).logFile = st.logFile := by
  have hp : processRow entries sm agentTurn row = RowAction.noData sf := by
    unfold processRow
    rw [h1]
    simp only [decide_eq_true h2, if_true, h3, if_true]
  exact ⟨hp, by rw [hp]; rfl, by rw [hp]; rfl⟩

/-- All-null row (with its PDF present) witnessing `no_data_short_circuit`. -/
def wrowC7 : StoreRow :=
  { sourceFile := some "c.pdf", fields := [("Study ID", none), ("Journal", none)] }

/-- Witness for `no_data_short_circuit` at `wrowC7`. -/
theorem no_data_short_circuit_witness :
    (wrowC7.sourceFile = some "c.pdf" ∧ "c.pdf" ∈ ["c.pdf"] ∧
        (nonMetaFields wrowC7).isEmpty = true) ∧
      (processRow ["c.pdf"] (fun _ => none) (fun _ => none) wrowC7 = RowAction.noData "c.pdf" ∧
        (valStep { results := [], logFile := none }
            (processRow ["c.pdf"] (fun _ => none) (fun _ => none) wrowC7)).results
            = [] ++ [noDataOutcome "c.pdf"] ∧
        (valStep { results := [], logFile := none }
            (processRow ["c.pdf"] (fun _ => none) (fun _ => none) wrowC7)).logFile = none) :=
  ⟨⟨rfl, by decide, by decide⟩,
    no_data_short_circuit ["c.pdf"] (fun _ => none) (fun _ => none) wrowC7
      { results := [], logFile := none } "c.pdf" rfl (by decide) (by decide)⟩

/-- A stale FAIL row from an earlier validation pass, used for C6. -/
def staleFailRow : LogRow :=
  { sourceFile := some "old.pdf", status := some "FAIL", field := some "Journal",
    extractedValue := some "X", correctValue := some "Y", description := some "stale" }

/-- Claim C6 (code bug): a Validation Stage run that produces at least
one outcome is supposed to leave the Discrepancy Log holding exactly the
flattened rows of that run, but the NO DATA branch `continue`s past the
incremental save: a run whose only produced outcome is a trailing
NO DATA outcome leaves the previous pass's log file untouched (here a
stale FAIL row survives), and the run's own outcome is never written. -/
theorem trailing_no_data_outcome_not_flushed :
    (runValidation { results := [], logFile := some [staleFailRow] }
          [RowAction.noData "b.pdf"]).results = [noDataOutcome "b.pdf"] ∧
      (runValidation { results := [], logFile := some [staleFailRow] }
          [RowAction.noData "b.pdf"]).logFile = some [staleFailRow] ∧
      some [staleFailRow] ≠ some (flattenAll [noDataOutcome "b.pdf"]) :=
  ⟨rfl, rfl, by decide⟩

lemma results_mono_valStep (st : ValState) (a : RowAction) (r : Outcome)
    (h : r ∈ st.results) : r ∈ (valStep st a).results := by
  cases a with
  | skipRow => exact h
  | noData sf => exact List.mem_append_left _ h
  | interact sf reply =>
      cases reply with
      | none => exact h
      | some rep => exact List.mem_append_left _ h

/-- Invariant of the validation loop: the Discrepancy Log file is either
absent or the flattening of a sublist of the outcomes collected so far. -/
def LogInv (st : ValState) : Prop :=
  st.logFile = none ∨
    ∃ rs : List Outcome, st.logFile = some (flattenAll rs) ∧ ∀ r ∈ rs, r ∈ st.results

lemma logInv_valStep (st : ValState) (a : RowAction) (h : LogInv st) :
    LogInv (valStep st a) := by
  cases a with
  | skipRow => exact h
  | noData sf =>
      rcases h with h | ⟨rs, hlog, hsub⟩
      · exact Or.inl h
      · exact Or.inr ⟨rs, hlog, fun r hr => List.mem_append_left _ (hsub r hr)⟩
  | interact sf reply =>
      show LogInv { results := _, logFile := _ }
      cases reply with
      | none =>
          by_cases hres : st.results.isEmpty = true
          · simp only [valStep, hres, if_true]
            rcases h with h | ⟨rs, hlog, hsub⟩
            · exact Or.inl h
            · exact Or.inr ⟨rs, hlog, hsub⟩
          · simp only [valStep, hres, if_false]
            exact Or.inr ⟨st.results, rfl, fun r hr => hr⟩
      | some rep =>
          have hne : (st.results ++ [outcomeOfReply sf rep]).isEmpty = false := by
            simp
          simp only [valStep, hne, if_false]
          exact Or.inr ⟨st.results ++ [outcomeOfReply sf rep], rfl, fun r hr => hr⟩

lemma logInv_runValidation (st : ValState) (acts : List RowAction) (h : LogInv st) :
    LogInv (runValidation st acts) := by
  induction acts generalizing st with
  | nil => exact h
  | cons a t ih => exact ih (valStep st a) (logInv_valStep st a h)

lemma results_mono_runValidation (st : ValState) (acts : List RowAction) (r : Outcome)
    (h : r ∈ st.results) : r ∈ (runValidation st acts).results := by
  induction acts generalizing st with
  | nil => exact h
  | cons a t ih => exact ih (valStep st a) (results_mono_valStep st a r h)

lemma mem_of_getFailedFiles {rows : List LogRow} {f : String}
    (h : f ∈ getFailedFiles (some rows)) :
    ∃ row ∈ rows, row.status = some "FAIL" ∧ row.sourceFile = some f := by
  unfold getFailedFiles at h
  rcases List.mem_filterMap.mp h with ⟨o, ho, hid⟩
  cases o with
  | none => simp at hid
  | some g =>
      have hgf : g = f := by simpa using hid
      subst hgf
      have ho' := List.mem_dedup.mp ho
      rcases List.mem_map.mp ho' with ⟨row, hrow, hsf⟩
      rcases List.mem_filter.mp hrow with ⟨hmem, hstat⟩
      exact ⟨row, hmem, of_decide_eq_true hstat, hsf⟩

lemma flattenOutcome_status {res : Outcome} {row : LogRow}
    (h : row ∈ flattenOutcome res) :
    row.sourceFile = res.sourceFile ∧ row.status = res.status := by
  unfold flattenOutcome at h
  cases hds : res.discrepancies with
  | none =>
      rw [hds] at h
      rcases List.mem_singleton.mp h with rfl
      exact ⟨rfl, rfl⟩
  | some ds =>
      cases ds with
      | nil =>
          rw [hds] at h
          rcases List.mem_singleton.mp h with rfl
          exact ⟨rfl, rfl⟩
      | cons d t =>
          rw [hds] at h
          rcases List.mem_map.mp h with ⟨d', _, rfl⟩
          exact ⟨rfl, rfl⟩

lemma mem_flattenAll {rs : List Outcome} {row : LogRow}
    (h : row ∈ flattenAll rs) : ∃ res ∈ rs, row ∈ flattenOutcome res := by
  unfold flattenAll at h
  rcases List.mem_flatten.mp h with ⟨l, hl, hrow⟩
  rcases List.mem_map.mp hl with ⟨res, hres, rfl⟩
  exact ⟨res, hres, hrow⟩

/-- `os.remove(DISCREPANCY_FILE)` at the start of the orchestrator
(`do_it_all.py` lines 112-117), modelled at the file-state level: after
the deletion no log file exists, whatever was there before.  (The
swallowed OS-level removal failure of the bare `except` is outside this
model: removal is assumed to take effect.) -/
def deleteLogFile (_prev : Option (List LogRow)) : Option (List LogRow) := none

/-- Phase 1 of the orchestrator (`do_it_all.py` lines 111-121): clear
any previous Discrepancy Log, then run a Validation Stage pass starting
from an empty result list. -/
def orchPhase1 (prevLog : Option (List LogRow)) (acts : List RowAction) : ValState :=
  runValidation { results := [], logFile := deleteLogFile prevLog } acts

/-- Claim C10: because the orchestrator deletes any existing Discrepancy
Log before the first validation pass, every `source_id` in the failure
set that drives healing comes from a FAIL outcome produced by the
current run — no failure recorded by a previous run can enter it. -/
theorem healing_driven_by_current_run_only (prevLog : Option (List LogRow))
    (acts : List RowAction) (f : String)
    (hf : f ∈ getFailedFiles (orchPhase1 prevLog acts).logFile) :
    ∃ res ∈ (orchPhase1 prevLog acts).results,
      res.status = some "FAIL" ∧ res.sourceFile = some f := by
  have hinv : LogInv (orchPhase1 prevLog acts) :=
    logInv_runValidation _ acts (Or.inl rfl)
  rcases hinv with hnone | ⟨rs, hlog, hsub⟩
  · rw [hnone] at hf
    simp [getFailedFiles] at hf
  · rw [hlog] at hf
    rcases mem_of_getFailedFiles hf with ⟨row, hrow, hstat, hsf⟩
    rcases mem_flattenAll hrow with ⟨res, hres, hrowres⟩
    rcases flattenOutcome_status hrowres with ⟨hsf', hstat'⟩
    refine ⟨res, hsub res hres, ?_, ?_⟩
    · rw [← hstat', hstat]
    · rw [← hsf', hsf]

/-- An agent reply with one CRITICAL discrepancy, used by the C10 witness. -/
def wfailReplyC10 : AgentReply :=
  { status := some "FAIL",
    discrepancies := some [{ field := some "Journal", extractedValue := some "X",
                             correctValue := some "Y", severity := some "CRITICAL",
                             description := some "wrong" }] }

/-- Witness for `healing_driven_by_current_run_only`: a run with one
FAIL interaction for `a.pdf`, starting from a stale log. -/
theorem healing_driven_by_current_run_only_witness :
    ("a.pdf" ∈ getFailedFiles
        (orchPhase1 (some [staleFailRow])
          [RowAction.interact "a.pdf" (some wfailReplyC10)]).logFile) ∧
      ∃ res ∈ (orchPhase1 (some [staleFailRow])
          [RowAction.interact "a.pdf" (some wfailReplyC10)]).results,
        res.status = some "FAIL" ∧ res.sourceFile = some "a.pdf" :=
  ⟨by decide,
    healing_driven_by_current_run_only (some [staleFailRow])
      [RowAction.interact "a.pdf" (some wfailReplyC10)] "a.pdf" (by decide)⟩

/-- The opening brace character, written via its code point. -/
def openBraceChar : Char := Char.ofNat 123

/-- The closing brace character, written via its code point. -/
def closeBraceChar : Char := Char.ofNat 125

/-- Python's `str.find(c)` over a character list: the index of the first
occurrence, `none` standing for the `-1` result. -/
def pyFind (c : Char) : List Char → Option Nat
  | [] => none
  | a :: as => if a == c then some 0 else (pyFind c as).map (fun n => n + 1)

/-- Python's `str.rfind(c)`: the index of the last occurrence, `none`
standing for `-1`. -/
def pyRFind (c : Char) (cs : List Char) : Option Nat :=
  match pyFind c cs.reverse with
  | none => none
  | some i => some (cs.length - 1 - i)

/-- Python's slice `s[start:stop]` on a character list. -/
def pySlice (cs : List Char) (start stop : Nat) : List Char :=
  (cs.take stop).drop start

/-- The three possible results of the JSON-extraction tail shared by the
two clients: a parsed value, no JSON found, or a parse error. -/
inductive ParseOutcome (J : Type) where
  | ok : J → ParseOutcome J
  | noJsonFound : ParseOutcome J
  | jsonParseError : ParseOutcome J
deriving DecidableEq, Repr

/-- The JSON-extraction tail of both clients (`gemini_extractor.py`
lines 199-212, `validation_agent.py` lines 199-227): locate the first
brace and one past the last closing brace; since `rfind` returning `-1`
makes `end = 0` (never `-1`), the guard `start != -1 and end != -1`
reduces to the first brace existing; the enclosed slice is handed to the
JSON parser `jp` (`json.loads`, abstracted as a function returning
`none` when parsing raises). -/
def parseReplyTail {J : Type} (jp : String → Option J) (reply : String) : ParseOutcome J :=
  let cs := reply.toList
  let stop : Nat :=
    match pyRFind closeBraceChar cs with
    | some j => j + 1
    | none => 0
  match pyFind openBraceChar cs with
  | none => ParseOutcome.noJsonFound
  | some i =>
      match jp (String.mk (pySlice cs i stop)) with
      | some d => ParseOutcome.ok d
      | none => ParseOutcome.jsonParseError

/-- The extractor client's boundary (`gemini_extractor.py` lines
199-216): both failure outcomes are converted to `None`. -/
def extract_data_parse {J : Type} (jp : String → Option J) (reply : String) : Option J :=
  match parseReplyTail jp reply with
  | ParseOutcome.ok d => some d
  | ParseOutcome.noJsonFound => none
  | ParseOutcome.jsonParseError => none

/-- The ERROR reply dicts built by `interact_with_gemini`
(`validation_agent.py` lines 225 and 227). -/
def errorReply (msg raw : String) : AgentReply :=
  { status := some "ERROR", discrepancies := none,
    message := some msg, rawResponse := some raw }

/-- The validation client's boundary (`validation_agent.py` lines
199-227): a parsed reply goes through severity reconciliation; the two
failure outcomes become typed ERROR replies instead of exceptions. -/
def interactParse (jp : String → Option AgentReply) (reply : String) : AgentReply :=
  match parseReplyTail jp reply with
  | ParseOutcome.ok d => reconcile d
  | ParseOutcome.noJsonFound => errorReply "No JSON found" reply
  | ParseOutcome.jsonParseError => errorReply "JSON Parse Error" reply

lemma pyFind_eq_none_of_not_mem {c : Char} :
    ∀ {cs : List Char}, (∀ a ∈ cs, a ≠ c) → pyFind c cs = none := by
  intro cs
  induction cs with
  | nil => intro _; rfl
  | cons a t ih =>
    intro h
    have ha : a ≠ c := h a (List.mem_cons_self a t)
    rw [pyFind, if_neg (by simpa using ha), ih (fun x hx => h x (List.mem_cons_of_mem a hx))]
    rfl

/-- Claim C8: the Interaction Agent Clients never let a malformed reply
escape: a reply with no opening brace is classified `noJsonFound`
by the shared JSON-extraction tail; the extractor client turns it into
`none` and the validation client into a typed ERROR reply; moreover a
document whose turn produced `none` leaves the Store untouched by its
extraction step, so (absence being the skip criterion) it stays eligible
for retry on the next invocation. -/
theorem malformed_reply_yields_typed_failure
    (jp : String → Option (List (String × Cell)))
    (jpv : String → Option AgentReply) (reply : String)
    (h : ∀ a ∈ reply.toList, a ≠ openBraceChar) :
    parseReplyTail jp reply = ParseOutcome.noJsonFound ∧
      extract_data_parse jp reply = none ∧
      interactParse jpv reply = errorReply "No JSON found" reply ∧
      ∀ (store : List StoreRow) (f : String),
        extractOne (fun _ => extract_data_parse jp reply) store f = store := by
  have hfind : pyFind openBraceChar reply.toList = none := pyFind_eq_none_of_not_mem h
  have hmain : parseReplyTail jp reply = ParseOutcome.noJsonFound := by
    simp only [parseReplyTail]
    rw [hfind]
  have hmainv : parseReplyTail jpv reply = ParseOutcome.noJsonFound := by
    simp only [parseReplyTail]
    rw [hfind]
  have hext : extract_data_parse jp reply = none := by
    unfold extract_data_parse
    rw [hmain]
  refine ⟨hmain, hext, ?_, ?_⟩
  · unfold interactParse
    rw [hmainv]
  · intro store f
    unfold extractOne
    rw [hext]

/-- Witness for `malformed_reply_yields_typed_failure` on a braceless
reply with parsers that always fail. -/
theorem malformed_reply_yields_typed_failure_witness :
    (∀ a ∈ ("no json in this reply" : String).toList, a ≠ openBraceChar) ∧
      (parseReplyTail (fun _ => (none : Option (List (String × Cell)))) "no json in this reply"
          = ParseOutcome.noJsonFound ∧
        extract_data_parse (fun _ => (none : Option (List (String × Cell)))) "no json in this reply"
          = none ∧
        interactParse (fun _ => (none : Option AgentReply)) "no json in this reply"
          = errorReply "No JSON found" "no json in this reply" ∧
        ∀ (store : List StoreRow) (f : String),
          extractOne
              (fun _ =>
                extract_data_parse (fun _ => (none : Option (List (String × Cell))))
                  "no json in this reply") store f
            = store) :=
  ⟨by decide,
    malformed_reply_yields_typed_failure (fun _ => none) (fun _ => none)
      "no json in this reply" (by decide)⟩

/-- Full state of a Validation Stage run as it touches the Record
Store file (`validation_agent.py` `main`): the persisted Store file,
the working frame `df` read at line 238 (mutated in place by smart
matching at line 377), the pristine second read `full_df` of line 265,
and the result list / Discrepancy Log as before. -/
structure ValFileState where
  storeFile : List StoreRow
  workingDf : List StoreRow
  fullDf : List StoreRow
  results : List Outcome
  logFile : Option (List LogRow)

/-- One iteration of the validation main loop including its file
writes: a successful smart match rewrites the `Source File` cell of the
current row in the working frame only (line 377); a row that reaches the
agent interaction triggers `full_df.to_excel(INPUT_FILE)` (line 443),
rewriting the Store file with the pristine snapshot, followed by the
incremental Discrepancy Log save; skipped and NO DATA rows write no
file except the result bookkeeping already modelled in `valStep`. -/
def valFileStep (entries : List String) (sm : StoreRow → Option String)
    (agentTurn : StoreRow → Option AgentReply) (st : ValFileState)
    (ir : Nat × StoreRow) : ValFileState :=
  let row := ir.2
  let working1 :=
    match row.sourceFile, sm row with
    | none, some s => st.workingDf.set ir.1 { row with sourceFile := some s }
    | _, _ => st.workingDf
  match processRow entries sm agentTurn row with
  | RowAction.skipRow => { st with workingDf := working1 }
  | RowAction.noData sf =>
      { st with workingDf := working1, results := st.results ++ [noDataOutcome sf] }
  | RowAction.interact sf reply =>
      let results :=
        match reply with
        | some r => st.results ++ [outcomeOfReply sf r]
        | none => st.results
      { storeFile := st.fullDf,
        workingDf := working1,
        fullDf := st.fullDf,
        results := results,
        logFile := if results.isEmpty then st.logFile else some (flattenAll results) }

/-- A whole Validation Stage pass at the file level: iterate over the
rows of the Store snapshot read at start (with their frame indices). -/
def runValidationFiles (entries : List String) (sm : StoreRow → Option String)
    (agentTurn : StoreRow → Option AgentReply) (store0 : List StoreRow)
    (log0 : Option (List LogRow)) : ValFileState :=
  store0.enum.foldl (valFileStep entries sm agentTurn)
    { storeFile := store0, workingDf := store0, fullDf := store0,
      results := [], logFile := log0 }

/-- Claim C9: a Validation Stage pass never changes the Record Store:
the file it rewrites after each interacting row is the pristine
`full_df` snapshot read at start, so the persisted Store equals its
initial contents after the run for every smart-matching heuristic and
every agent behaviour — identifier repairs live only in the working
frame. -/
theorem validation_preserves_record_store (entries : List String)
    (sm : StoreRow → Option String) (agentTurn : StoreRow → Option AgentReply)
    (store0 : List StoreRow) (log0 : Option (List LogRow)) :
    (runValidationFiles entries sm agentTurn store0 log0).storeFile = store0 ∧
      (runValidationFiles entries sm agentTurn store0 log0).fullDf = store0 := by
  have key : ∀ (l : List (Nat × StoreRow)) (st : ValFileState),
      st.fullDf = store0 → st.storeFile = store0 →
      (l.foldl (valFileStep entries sm agentTurn) st).storeFile = store0 ∧
        (l.foldl (valFileStep entries sm agentTurn) st).fullDf = store0 := by
    intro l
    induction l with
    | nil => intro st h1 h2; exact ⟨h2, h1⟩
    | cons a t ih =>
      intro st h1 h2
      rw [List.foldl_cons]
      refine ih _ ?_ ?_
      · rcases hpr : processRow entries sm agentTurn a.2 with _ | sf | ⟨sf, reply⟩ <;>
          simp [valFileStep, hpr, h1, h2]
      · rcases hpr : processRow entries sm agentTurn a.2 with _ | sf | ⟨sf, reply⟩ <;>
          simp [valFileStep, hpr, h1, h2]
  exact key store0.enum _ rfl rfl

end SysReviewAgent
